import Mathlib

/-!
Verification of Krita's luminance clip-mask compositor
(`libs/flake/KoClipMaskApplicator.h`).

`applyLuminanceMask` applies an ARGB32 mask to an ARGB32 image: for each
pixel the image alpha is rescaled by the mask's alpha-weighted Rec.709
luminance, and the red/green/blue channels are carried through unchanged.

Modelling conventions of the shallow embedding:

* a pixel is a packed 32-bit ARGB word, modelled as a natural number
  (alpha in bits 24–31, red in 16–23, green in 8–15, blue in 0–7);
  a pixel buffer is a `List ℕ`;
* the SIMD lanes compute lane-wise, so one vector batch over `w` lanes is
  the lane computation mapped over `w` consecutive pixels;
* the single-precision float arithmetic of the source is modelled as exact
  rational arithmetic (`ℚ`), and `xsimd::nearbyint_as_int` — round to
  nearest, ties to even, the default IEEE rounding mode — as
  `roundHalfEven : ℚ → ℤ`;
* the 32-bit lane arithmetic (`pixelAlpha_i << 24`, the int→uint bitcast)
  is modelled with explicit `% 2 ^ 32` / `Int.emod` reductions;
* the in-place mutation of the image buffer through `quint8 *pixels` is
  modelled by state passing: every operation takes the pair
  (image buffer, mask buffer) and returns the updated pair, so that
  writes to either buffer are visible in the model.
-/

namespace KoClipMask

/-- Source constant `redLum = 0.2125f` (Rec. 709 red luma weight). -/
def redLum : ℚ := 0.2125

/-- Source constant `greenLum = 0.7154f` (Rec. 709 green luma weight). -/
def greenLum : ℚ := 0.7154

/-- Source constant `blueLum = 0.0721f` (Rec. 709 blue luma weight). -/
def blueLum : ℚ := 0.0721

/-- Source constant `colorChannelsMask = 0x00FFFFFF`: the low 24 bits of a
pixel, i.e. its red/green/blue channels. -/
def colorChannelsMask : ℕ := 0x00FFFFFF

/-- Round to nearest integer, ties to even: the behaviour of
`xsimd::nearbyint_as_int` in the default IEEE-754 rounding mode
(`roundTiesToEven`). -/
def roundHalfEven (q : ℚ) : ℤ :=
  if q - ⌊q⌋ < 1 / 2 then ⌊q⌋
  else if 1 / 2 < q - ⌊q⌋ then ⌊q⌋ + 1
  else if 2 ∣ ⌊q⌋ then ⌊q⌋ else ⌊q⌋ + 1

/-- Mask alpha channel: `(maskData >> 24) & mask` with `mask = 0xFF`. -/
def maskAlpha (m : ℕ) : ℕ := (m >>> 24) &&& 0xFF

/-- Mask red channel: `(maskData >> 16) & mask`. -/
def maskRed (m : ℕ) : ℕ := (m >>> 16) &&& 0xFF

/-- Mask green channel: `(maskData >> 8) & mask`. -/
def maskGreen (m : ℕ) : ℕ := (m >>> 8) &&& 0xFF

/-- Mask blue channel: `maskData & mask`. -/
def maskBlue (m : ℕ) : ℕ := m &&& 0xFF

/-- The luminance-mask factor of one mask pixel:
`maskValue = maskAlpha * ((redLum * maskRed) + (greenLum * maskGreen) + (blueLum * maskBlue))`,
all four channels taken as their raw 8-bit values in [0, 255]. -/
def maskValue (m : ℕ) : ℚ :=
  (maskAlpha m : ℚ) *
    ((redLum * maskRed m) + (greenLum * maskGreen m) + (blueLum * maskBlue m))

/-- One lane of the vector body of `applyLuminanceMask` (and, identically,
one iteration of the scalar fallback):

    pixelAlpha   = to_float(shapeData >> 24) * maskValue;
    pixelAlpha_i = bitwise_cast<unsigned int>(nearbyint_as_int(pixelAlpha));
    shapeData    = (shapeData & colorChannelsMask) | (pixelAlpha_i << 24);

on 32-bit lanes: the int32→uint32 bitcast is `Int.emod 2 ^ 32` followed by
`Int.toNat`, and the lane shift `<< 24` wraps modulo `2 ^ 32`. -/
def applyPixel (p m : ℕ) : ℕ :=
  let pixelAlpha : ℚ := ((p >>> 24 : ℕ) : ℚ) * maskValue m
  let pixelAlpha_i : ℕ := ((roundHalfEven pixelAlpha) % (2 ^ 32 : ℤ)).toNat
  (p &&& colorChannelsMask) ||| ((pixelAlpha_i <<< 24) % 2 ^ 32)

/-- Modelled from the spec: the body of
`KoClipMaskApplicatorBase::fallbackLuminanceMask` is not among the provided
source files (`KoClipMaskApplicator.h` only declares it).  Per the spec it
processes `nPixels` pixels one at a time "with identical arithmetic" to the
vector path and with the identical rounding rule, rewriting image pixel `i`
from image pixel `i` and mask pixel `i`, never writing to the mask, and
advancing both cursors by one pixel per iteration.  If the count exceeds
the buffers (a caller-contract violation, out of bounds in C++), the model
leaves the remaining state unchanged. -/
def fallbackLuminanceMask : List ℕ × List ℕ → ℕ → List ℕ × List ℕ
  | (ps, ms), 0 => (ps, ms)
  | (p :: ps, m :: ms), n + 1 =>
    let s := fallbackLuminanceMask (ps, ms) n
    (applyPixel p m :: s.1, m :: s.2)
  | s, _ + 1 => s

/-- The vector loop of `applyLuminanceMask` (`for (int i = 0; i < block; i++)`):
`b` remaining iterations, each loading `w` pixels from both buffers
(`w` abstracts `float_v::size`), storing the `w` recomputed image pixels,
and advancing both cursors by `vectorPixelStride = 4 * w` bytes, i.e. `w`
pixels; after the loop the scalar fallback runs on `rem` pixels at the
current cursors. -/
def vectorLoop (w : ℕ) : ℕ → List ℕ × List ℕ → ℕ → List ℕ × List ℕ
  | 0, s, rem => fallbackLuminanceMask s rem
  | b + 1, (ps, ms), rem =>
    let batch := List.zipWith applyPixel (ps.take w) (ms.take w)
    let s := vectorLoop w b (ps.drop w, ms.drop w) rem
    (batch ++ s.1, ms.take w ++ s.2)

/-- `KoClipMaskApplicator<_impl>::applyLuminanceMask` (the xsimd
specialisation): `block = nPixels / float_v::size` full batches,
`block2 = nPixels % float_v::size` leftover pixels; the vector loop runs
`block` times and the scalar fallback is then invoked on `block2` pixels. -/
def applyLuminanceMask (w : ℕ) (s : List ℕ × List ℕ) (nPixels : ℕ) :
    List ℕ × List ℕ :=
  vectorLoop w (nPixels / w) s (nPixels % w)

/-- `KoClipMaskApplicator::applyLuminanceMask` of the primary template (no
SIMD implementation for the target): it delegates all `nPixels` pixels to
`KoClipMaskApplicatorBase::fallbackLuminanceMask`. -/
def applyLuminanceMaskGeneric (s : List ℕ × List ℕ) (nPixels : ℕ) :
    List ℕ × List ℕ :=
  fallbackLuminanceMask s nPixels

/-! Arithmetic facts about the per-lane computation. -/

theorem roundHalfEven_intCast (z : ℤ) : roundHalfEven (z : ℚ) = z := by
  unfold roundHalfEven
  rw [Int.floor_intCast]
  norm_num

theorem roundHalfEven_natCast (n : ℕ) : roundHalfEven (n : ℚ) = n := by
  have h := roundHalfEven_intCast (n : ℤ)
  rwa [Int.cast_natCast] at h

theorem roundHalfEven_nonneg (q : ℚ) (h : 0 ≤ q) : 0 ≤ roundHalfEven q := by
  have hf : 0 ≤ ⌊q⌋ := Int.floor_nonneg.mpr h
  unfold roundHalfEven
  split_ifs <;> omega

theorem maskValue_nonneg (m : ℕ) : 0 ≤ maskValue m := by
  unfold maskValue redLum greenLum blueLum
  positivity

/-- Closed form of one lane: the output pixel is the input's low 24 bits plus
the recomputed alpha byte (the low 8 bits of the rounded product) in the top
byte. -/
theorem applyPixel_eq (p m : ℕ) :
    applyPixel p m =
      p % 2 ^ 24 +
        2 ^ 24 * ((roundHalfEven (((p >>> 24 : ℕ) : ℚ) * maskValue m)).toNat % 2 ^ 8) := by
  have h0 : 0 ≤ roundHalfEven (((p >>> 24 : ℕ) : ℚ) * maskValue m) :=
    roundHalfEven_nonneg _ (mul_nonneg (Nat.cast_nonneg _) (maskValue_nonneg m))
  obtain ⟨k, hk⟩ := Int.eq_ofNat_of_zero_le h0
  simp only [applyPixel, colorChannelsMask, hk, Int.toNat_natCast]
  have h1 : (((k : ℕ) : ℤ) % (2 ^ 32 : ℤ)).toNat = k % 2 ^ 32 := by omega
  rw [h1, Nat.shiftLeft_eq]
  have h2 : k % 2 ^ 32 * 2 ^ 24 % (2 ^ 32) = 2 ^ 24 * (k % 2 ^ 8) := by
    rw [show (2 ^ 32 : ℕ) = 2 ^ 8 * 2 ^ 24 by norm_num, Nat.mul_mod_mul_right,
      Nat.mod_mod_of_dvd k ⟨2 ^ 24, rfl⟩, Nat.mul_comm]
  rw [h2, show (0x00FFFFFF : ℕ) = 2 ^ 24 - 1 from rfl, Nat.and_pow_two_sub_one_eq_mod,
    Nat.lor_comm, ← Nat.mul_add_lt_is_or (Nat.mod_lt p (by norm_num)) (k % 2 ^ 8)]
  omega

/-- The alpha byte of the output lane is the low 8 bits of the rounded
product. -/
theorem applyPixel_alpha (p m : ℕ) :
    applyPixel p m >>> 24 =
      (roundHalfEven (((p >>> 24 : ℕ) : ℚ) * maskValue m)).toNat % 2 ^ 8 := by
  rw [applyPixel_eq, Nat.shiftRight_eq_div_pow]
  have h : p % 2 ^ 24 < 2 ^ 24 := Nat.mod_lt p (by norm_num)
  set y := (roundHalfEven (((p >>> 24 : ℕ) : ℚ) * maskValue m)).toNat % 2 ^ 8 with hy
  omega

/-- The low 24 bits (red/green/blue channels) of the output lane are those of
the input pixel. -/
theorem applyPixel_rgb (p m : ℕ) :
    applyPixel p m &&& colorChannelsMask = p &&& colorChannelsMask := by
  rw [applyPixel_eq, show colorChannelsMask = 2 ^ 24 - 1 from rfl,
    Nat.and_pow_two_sub_one_eq_mod, Nat.and_pow_two_sub_one_eq_mod]
  omega

theorem applyPixel_lt (p m : ℕ) : applyPixel p m < 2 ^ 32 := by
  rw [applyPixel_eq]
  have h1 : p % 2 ^ 24 < 2 ^ 24 := Nat.mod_lt p (by norm_num)
  have h2 : (roundHalfEven (((p >>> 24 : ℕ) : ℚ) * maskValue m)).toNat % 2 ^ 8 < 2 ^ 8 :=
    Nat.mod_lt _ (by norm_num)
  omega

/-! Closed forms of the buffer-level loops. -/

theorem fallback_snd (s : List ℕ × List ℕ) (n : ℕ) :
    (fallbackLuminanceMask s n).2 = s.2 := by
  induction n generalizing s with
  | zero =>
    obtain ⟨ps, ms⟩ := s
    simp [fallbackLuminanceMask]
  | succ n ih =>
    obtain ⟨ps, ms⟩ := s
    cases ps with
    | nil => simp [fallbackLuminanceMask]
    | cons p ps =>
      cases ms with
      | nil => simp [fallbackLuminanceMask]
      | cons m ms => simp [fallbackLuminanceMask, ih (ps, ms)]

theorem fallback_fst (ps ms : List ℕ) (n : ℕ) (hp : n ≤ ps.length)
    (hm : n ≤ ms.length) :
    (fallbackLuminanceMask (ps, ms) n).1 =
      List.zipWith applyPixel (ps.take n) (ms.take n) ++ ps.drop n := by
  induction n generalizing ps ms with
  | zero => simp [fallbackLuminanceMask]
  | succ n ih =>
    cases ps with
    | nil => simp at hp
    | cons p ps =>
      cases ms with
      | nil => simp at hm
      | cons m ms =>
        simp only [fallbackLuminanceMask, List.take_succ_cons, List.drop_succ_cons,
          List.zipWith_cons_cons, List.cons_append]
        simp only [List.length_cons] at hp hm
        rw [ih ps ms (by omega) (by omega)]

theorem vectorLoop_snd (w b : ℕ) (ps ms : List ℕ) (rem : ℕ) :
    (vectorLoop w b (ps, ms) rem).2 = ms := by
  induction b generalizing ps ms with
  | zero => simpa using fallback_snd (ps, ms) rem
  | succ b ih => simp [vectorLoop, ih, List.take_append_drop]

/-- Reassembling a leading batch with the rest of the processed buffer. -/
theorem zip_take_assemble (f : ℕ → ℕ → ℕ) (ps ms : List ℕ) (a b : ℕ)
    (t : List ℕ) (hp : a ≤ ps.length) (hm : a ≤ ms.length) :
    List.zipWith f (ps.take a) (ms.take a) ++
        (List.zipWith f ((ps.drop a).take b) ((ms.drop a).take b) ++ t) =
      List.zipWith f (ps.take (a + b)) (ms.take (a + b)) ++ t := by
  rw [List.take_add, List.take_add,
    List.zipWith_append f _ _ _ _ (by simp [List.length_take]; omega),
    List.append_assoc]

/-- The vector loop runs `b` batches of `w` pixels through the lane
computation, then hands the buffers — both cursors advanced by `b * w`
pixels — to the scalar fallback for the leftover count. -/
theorem vectorLoop_fst_decomp (w b rem : ℕ) (ps ms : List ℕ)
    (hp : b * w ≤ ps.length) (hm : b * w ≤ ms.length) :
    (vectorLoop w b (ps, ms) rem).1 =
      List.zipWith applyPixel (ps.take (b * w)) (ms.take (b * w)) ++
        (fallbackLuminanceMask (ps.drop (b * w), ms.drop (b * w)) rem).1 := by
  induction b generalizing ps ms with
  | zero => simp [vectorLoop]
  | succ b ih =>
    have hsm : (b + 1) * w = w + b * w := by ring
    rw [hsm] at hp hm
    have h1 : b * w ≤ (ps.drop w).length := by simp [List.length_drop]; omega
    have h2 : b * w ≤ (ms.drop w).length := by simp [List.length_drop]; omega
    simp only [vectorLoop]
    rw [ih (ps.drop w) (ms.drop w) h1 h2, List.drop_drop, List.drop_drop, hsm,
      zip_take_assemble applyPixel ps ms w (b * w) _ (by omega) (by omega)]

/-- Closed form of the vectorized `applyLuminanceMask`: the first `nPixels`
image pixels go through the lane computation. The rest of the image buffer
is untouched; the mask buffer is only read. -/
theorem applyLuminanceMask_fst (w : ℕ) (ps ms : List ℕ) (n : ℕ)
    (hp : n ≤ ps.length) (hm : n ≤ ms.length) :
    (applyLuminanceMask w (ps, ms) n).1 =
      List.zipWith applyPixel (ps.take n) (ms.take n) ++ ps.drop n := by
  have hdm : n / w * w + n % w = n := Nat.div_add_mod' n w
  unfold applyLuminanceMask
  rw [vectorLoop_fst_decomp w (n / w) (n % w) ps ms (by omega) (by omega)]
  rw [fallback_fst _ _ _ (by simp [List.length_drop]; omega)
    (by simp [List.length_drop]; omega)]
  rw [← List.append_assoc, ← List.zipWith_append applyPixel _ _ _ _
    (by simp [List.length_take]; omega), ← List.take_add, ← List.take_add,
    List.drop_drop, hdm]

theorem applyLuminanceMaskGeneric_fst (ps ms : List ℕ) (n : ℕ)
    (hp : n ≤ ps.length) (hm : n ≤ ms.length) :
    (applyLuminanceMaskGeneric (ps, ms) n).1 =
      List.zipWith applyPixel (ps.take n) (ms.take n) ++ ps.drop n :=
  fallback_fst ps ms n hp hm

theorem out_length (w : ℕ) (ps ms : List ℕ) (n : ℕ) (hp : n ≤ ps.length)
    (hm : n ≤ ms.length) :
    ((applyLuminanceMask w (ps, ms) n).1).length = ps.length := by
  rw [applyLuminanceMask_fst w ps ms n hp hm]
  simp only [List.length_append, List.length_zipWith, List.length_take,
    List.length_drop]
  omega

/-- Processed entries of the output buffer: pixel `i < nPixels` is the lane
computation of image pixel `i` and mask pixel `i`. -/
theorem out_getElem_lt (w : ℕ) (ps ms : List ℕ) (n i : ℕ) (hp : n ≤ ps.length)
    (hm : n ≤ ms.length) (hi : i < n) :
    ((applyLuminanceMask w (ps, ms) n).1)[i]! = applyPixel ps[i]! ms[i]! := by
  rw [applyLuminanceMask_fst w ps ms n hp hm]
  have h1 : i < (List.zipWith applyPixel (ps.take n) (ms.take n)).length := by
    simp only [List.length_zipWith, List.length_take]
    omega
  have h2 : i < (List.zipWith applyPixel (ps.take n) (ms.take n) ++ ps.drop n).length := by
    simp only [List.length_append, List.length_zipWith, List.length_take,
      List.length_drop]
    omega
  rw [getElem!_pos (List.zipWith applyPixel (ps.take n) (ms.take n) ++ ps.drop n) i h2,
    getElem!_pos ps i (by omega), getElem!_pos ms i (by omega),
    List.getElem_append_left h1, List.getElem_zipWith, List.getElem_take,
    List.getElem_take]

/-- Untouched entries of the output buffer: pixels at index `nPixels` and
beyond keep their input values. -/
theorem out_getElem_ge (w : ℕ) (ps ms : List ℕ) (n i : ℕ) (hp : n ≤ ps.length)
    (hm : n ≤ ms.length) (hi : n ≤ i) :
    ((applyLuminanceMask w (ps, ms) n).1)[i]! = ps[i]! := by
  rw [applyLuminanceMask_fst w ps ms n hp hm]
  by_cases hlt : i < ps.length
  · have h2 : i < (List.zipWith applyPixel (ps.take n) (ms.take n) ++ ps.drop n).length := by
      simp only [List.length_append, List.length_zipWith, List.length_take,
        List.length_drop]
      omega
    have h1 : (List.zipWith applyPixel (ps.take n) (ms.take n)).length ≤ i := by
      simp only [List.length_zipWith, List.length_take]
      omega
    rw [getElem!_pos (List.zipWith applyPixel (ps.take n) (ms.take n) ++ ps.drop n) i h2,
      getElem!_pos ps i hlt, List.getElem_append_right h1, List.getElem_drop]
    congr 1
    simp only [List.length_zipWith, List.length_take]
    omega
  · rw [getElem!_neg (List.zipWith applyPixel (ps.take n) (ms.take n) ++ ps.drop n) i
      (by simp only [List.length_append, List.length_zipWith, List.length_take,
        List.length_drop]; omega), getElem!_neg ps i (by omega)]

/-! Concrete evaluations used by the witnesses. -/

theorem maskValue_white : maskValue 0xFFFFFFFF = 65025 := by
  unfold maskValue
  rw [show maskAlpha 0xFFFFFFFF = 255 from rfl, show maskRed 0xFFFFFFFF = 255 from rfl,
    show maskGreen 0xFFFFFFFF = 255 from rfl, show maskBlue 0xFFFFFFFF = 255 from rfl]
  unfold redLum greenLum blueLum
  norm_num

theorem roundHalfEven_white_product (a : ℕ) :
    roundHalfEven ((a : ℚ) * maskValue 0xFFFFFFFF) = ((a * 65025 : ℕ) : ℤ) := by
  rw [maskValue_white, show ((a : ℚ) * 65025) = ((a * 65025 : ℕ) : ℚ) by push_cast; ring]
  exact roundHalfEven_natCast _

/-! Claim theorems. -/

/-- Claim C1, counterexample to the claim as stated: for image pixel
`0x02ABCDEF` (alpha 2) under the full-white opaque mask pixel `0xFFFFFFFF`,
the stored alpha byte is `2`, whereas
`round-to-nearest(imageAlpha * maskValue) = round(2 * 65025) = 130050`;
the stored alpha equals the rounded product only modulo 256, not exactly. -/
theorem C1_stored_alpha_counterexample :
    ((applyLuminanceMask 4 ([0x02ABCDEF], [0xFFFFFFFF]) 1).1)[0]! >>> 24 ≠
      (roundHalfEven (((0x02ABCDEF >>> 24 : ℕ) : ℚ) *
        maskValue 0xFFFFFFFF)).toNat := by
  have h0 : ((applyLuminanceMask 4 ([0x02ABCDEF], [0xFFFFFFFF]) 1).1)[0]! =
      applyPixel 0x02ABCDEF 0xFFFFFFFF := by
    rw [out_getElem_lt 4 [0x02ABCDEF] [0xFFFFFFFF] 1 0 (by simp) (by simp)
      (by norm_num)]
    rfl
  have hr : roundHalfEven (((0x02ABCDEF >>> 24 : ℕ) : ℚ) * maskValue 0xFFFFFFFF) =
      ((130050 : ℕ) : ℤ) := roundHalfEven_white_product (0x02ABCDEF >>> 24)
  have ha : applyPixel 0x02ABCDEF 0xFFFFFFFF >>> 24 = 2 := by
    rw [applyPixel_alpha, hr]
    decide
  rw [h0, ha, hr]
  decide

/-- Claim C1 (amended): for every pixel `i < nPixels` processed by
`applyLuminanceMask`, the new image alpha equals the low 8 bits of
round-to-nearest(imageAlpha_i * maskValue_i), with
`maskValue_i = maskAlpha_i * (0.2125*maskRed_i + 0.7154*maskGreen_i +
0.0721*maskBlue_i)`, all mask channels and the image alpha taken as their
raw 8-bit values in [0,255] with no normalization, and the red/green/blue
channels of the image pixel carried through unchanged.  (The amendment —
"the low 8 bits of" — is forced by the counterexample: the lane store
truncates the rounded product to the alpha byte.) -/
theorem C1_stored_alpha_formula (w : ℕ) (ps ms : List ℕ) (n i : ℕ)
    (hp : n ≤ ps.length) (hm : n ≤ ms.length) (hi : i < n) :
    ((applyLuminanceMask w (ps, ms) n).1)[i]! >>> 24 =
      (roundHalfEven (((ps[i]! >>> 24 : ℕ) : ℚ) * maskValue ms[i]!)).toNat % 2 ^ 8 ∧
    ((applyLuminanceMask w (ps, ms) n).1)[i]! &&& colorChannelsMask =
      ps[i]! &&& colorChannelsMask := by
  rw [out_getElem_lt w ps ms n i hp hm hi]
  exact ⟨applyPixel_alpha _ _, applyPixel_rgb _ _⟩

theorem C1_stored_alpha_formula_witness :
    2 ≤ ([0x80112233, 0xC8FFEEDD] : List ℕ).length ∧
    2 ≤ ([0x20FFFFFF, 0x80402010] : List ℕ).length ∧
    1 < 2 ∧
    (((applyLuminanceMask 4 ([0x80112233, 0xC8FFEEDD], [0x20FFFFFF, 0x80402010]) 2).1)[1]! >>> 24 =
      (roundHalfEven (((([0x80112233, 0xC8FFEEDD] : List ℕ)[1]! >>> 24 : ℕ) : ℚ) *
        maskValue ([0x20FFFFFF, 0x80402010] : List ℕ)[1]!)).toNat % 2 ^ 8 ∧
    ((applyLuminanceMask 4 ([0x80112233, 0xC8FFEEDD], [0x20FFFFFF, 0x80402010]) 2).1)[1]! &&&
        colorChannelsMask =
      ([0x80112233, 0xC8FFEEDD] : List ℕ)[1]! &&& colorChannelsMask) :=
  ⟨by simp, by simp, by norm_num,
    C1_stored_alpha_formula 4 [0x80112233, 0xC8FFEEDD] [0x20FFFFFF, 0x80402010] 2 1
      (by simp) (by simp) (by norm_num)⟩

/-- Claim C2: for every valid input, the scalar reference path
(`fallbackLuminanceMask`, here modelled from the spec) and the vectorized
`applyLuminanceMask` produce identical output buffers, whatever the batch
width: the mixed vector+remainder run equals the all-scalar run. -/
theorem C2_vector_eq_scalar (w : ℕ) (ps ms : List ℕ) (n : ℕ)
    (hp : n ≤ ps.length) (hm : n ≤ ms.length) :
    applyLuminanceMask w (ps, ms) n = applyLuminanceMaskGeneric (ps, ms) n := by
  refine Prod.ext ?_ ?_
  · rw [applyLuminanceMask_fst w ps ms n hp hm,
      applyLuminanceMaskGeneric_fst ps ms n hp hm]
  · rw [show (applyLuminanceMask w (ps, ms) n).2 = ms from
      vectorLoop_snd w (n / w) ps ms (n % w),
      show (applyLuminanceMaskGeneric (ps, ms) n).2 = ms from
      fallback_snd (ps, ms) n]

theorem C2_vector_eq_scalar_witness :
    3 ≤ ([0x80112233, 0xC8FFEEDD, 0xFF000001] : List ℕ).length ∧
    3 ≤ ([0x20FFFFFF, 0x80402010, 0xFFFFFFFF] : List ℕ).length ∧
    applyLuminanceMask 2 ([0x80112233, 0xC8FFEEDD, 0xFF000001],
        [0x20FFFFFF, 0x80402010, 0xFFFFFFFF]) 3 =
      applyLuminanceMaskGeneric ([0x80112233, 0xC8FFEEDD, 0xFF000001],
        [0x20FFFFFF, 0x80402010, 0xFFFFFFFF]) 3 :=
  ⟨by simp, by simp,
    C2_vector_eq_scalar 2 [0x80112233, 0xC8FFEEDD, 0xFF000001]
      [0x20FFFFFF, 0x80402010, 0xFFFFFFFF] 3 (by simp) (by simp)⟩

/-- Claim C3: `applyLuminanceMask` dispatches as `block = nPixels / W` full
batches and `block2 = nPixels % W` leftover pixels; the vector loop
processes exactly `block * W` pixels, advancing both cursors by `W` pixels
per batch, and then the scalar fallback is invoked on exactly the trailing
`block2` pixels at the advanced cursors; the generic (no-SIMD) variant
invokes the scalar fallback on all `nPixels`; every pixel below `nPixels`
is processed exactly once and the rest of the buffer is untouched. -/
theorem C3_dispatch (w : ℕ) (ps ms : List ℕ) (n : ℕ) (hp : n ≤ ps.length)
    (hm : n ≤ ms.length) :
    applyLuminanceMask w (ps, ms) n = vectorLoop w (n / w) (ps, ms) (n % w) ∧
    (applyLuminanceMask w (ps, ms) n).1 =
      List.zipWith applyPixel (ps.take (n / w * w)) (ms.take (n / w * w)) ++
        (fallbackLuminanceMask (ps.drop (n / w * w), ms.drop (n / w * w)) (n % w)).1 ∧
    applyLuminanceMaskGeneric (ps, ms) n = fallbackLuminanceMask (ps, ms) n ∧
    (applyLuminanceMask w (ps, ms) n).1 =
      List.zipWith applyPixel (ps.take n) (ms.take n) ++ ps.drop n := by
  have hd : n / w * w ≤ n := Nat.div_mul_le_self n w
  refine ⟨rfl, ?_, rfl, applyLuminanceMask_fst w ps ms n hp hm⟩
  exact vectorLoop_fst_decomp w (n / w) (n % w) ps ms (by omega) (by omega)

theorem C3_dispatch_witness :
    3 ≤ ([0x80112233, 0xC8FFEEDD, 0xFF000001] : List ℕ).length ∧
    3 ≤ ([0x20FFFFFF, 0x80402010, 0xFFFFFFFF] : List ℕ).length ∧
    (applyLuminanceMask 2 ([0x80112233, 0xC8FFEEDD, 0xFF000001],
        [0x20FFFFFF, 0x80402010, 0xFFFFFFFF]) 3 =
      vectorLoop 2 (3 / 2) ([0x80112233, 0xC8FFEEDD, 0xFF000001],
        [0x20FFFFFF, 0x80402010, 0xFFFFFFFF]) (3 % 2) ∧
    (applyLuminanceMask 2 ([0x80112233, 0xC8FFEEDD, 0xFF000001],
        [0x20FFFFFF, 0x80402010, 0xFFFFFFFF]) 3).1 =
      List.zipWith applyPixel
          (([0x80112233, 0xC8FFEEDD, 0xFF000001] : List ℕ).take (3 / 2 * 2))
          (([0x20FFFFFF, 0x80402010, 0xFFFFFFFF] : List ℕ).take (3 / 2 * 2)) ++
        (fallbackLuminanceMask
          (([0x80112233, 0xC8FFEEDD, 0xFF000001] : List ℕ).drop (3 / 2 * 2),
           ([0x20FFFFFF, 0x80402010, 0xFFFFFFFF] : List ℕ).drop (3 / 2 * 2)) (3 % 2)).1 ∧
    applyLuminanceMaskGeneric ([0x80112233, 0xC8FFEEDD, 0xFF000001],
        [0x20FFFFFF, 0x80402010, 0xFFFFFFFF]) 3 =
      fallbackLuminanceMask ([0x80112233, 0xC8FFEEDD, 0xFF000001],
        [0x20FFFFFF, 0x80402010, 0xFFFFFFFF]) 3 ∧
    (applyLuminanceMask 2 ([0x80112233, 0xC8FFEEDD, 0xFF000001],
        [0x20FFFFFF, 0x80402010, 0xFFFFFFFF]) 3).1 =
      List.zipWith applyPixel
          (([0x80112233, 0xC8FFEEDD, 0xFF000001] : List ℕ).take 3)
          (([0x20FFFFFF, 0x80402010, 0xFFFFFFFF] : List ℕ).take 3) ++
        ([0x80112233, 0xC8FFEEDD, 0xFF000001] : List ℕ).drop 3) :=
  ⟨by simp, by simp,
    C3_dispatch 2 [0x80112233, 0xC8FFEEDD, 0xFF000001]
      [0x20FFFFFF, 0x80402010, 0xFFFFFFFF] 3 (by simp) (by simp)⟩

/-- Claim C4: `applyLuminanceMask` leaves the red/green/blue channels (the
low 24 bits) of every image pixel exactly equal to their input values —
only the top 8 bits (alpha) of each pixel are replaced — and the buffer
keeps its length. -/
theorem C4_rgb_untouched (w : ℕ) (ps ms : List ℕ) (n : ℕ) (hp : n ≤ ps.length)
    (hm : n ≤ ms.length) :
    ((applyLuminanceMask w (ps, ms) n).1).length = ps.length ∧
    ∀ i : ℕ, ((applyLuminanceMask w (ps, ms) n).1)[i]! &&& colorChannelsMask =
      ps[i]! &&& colorChannelsMask := by
  refine ⟨out_length w ps ms n hp hm, fun i => ?_⟩
  by_cases hi : i < n
  · rw [out_getElem_lt w ps ms n i hp hm hi]
    exact applyPixel_rgb _ _
  · rw [out_getElem_ge w ps ms n i hp hm (by omega)]

theorem C4_rgb_untouched_witness :
    2 ≤ ([0x80112233, 0xC8FFEEDD] : List ℕ).length ∧
    2 ≤ ([0x20FFFFFF, 0x80402010] : List ℕ).length ∧
    (((applyLuminanceMask 4 ([0x80112233, 0xC8FFEEDD], [0x20FFFFFF, 0x80402010]) 2).1).length =
      ([0x80112233, 0xC8FFEEDD] : List ℕ).length ∧
    ∀ i : ℕ, ((applyLuminanceMask 4 ([0x80112233, 0xC8FFEEDD], [0x20FFFFFF, 0x80402010]) 2).1)[i]! &&&
        colorChannelsMask =
      ([0x80112233, 0xC8FFEEDD] : List ℕ)[i]! &&& colorChannelsMask) :=
  ⟨by simp, by simp,
    C4_rgb_untouched 4 [0x80112233, 0xC8FFEEDD] [0x20FFFFFF, 0x80402010] 2
      (by simp) (by simp)⟩

/-- Claim C5: the computed alpha is not clamped: even when the rounded
product exceeds 255, the stored alpha byte is exactly the low 8 bits of
the rounded integer (unsigned 8-bit truncation), not a saturated 255. -/
theorem C5_truncation_not_clamp (w : ℕ) (ps ms : List ℕ) (n i : ℕ)
    (hp : n ≤ ps.length) (hm : n ≤ ms.length) (hi : i < n)
    (hover : 255 < roundHalfEven (((ps[i]! >>> 24 : ℕ) : ℚ) * maskValue ms[i]!)) :
    ((applyLuminanceMask w (ps, ms) n).1)[i]! >>> 24 =
      (roundHalfEven (((ps[i]! >>> 24 : ℕ) : ℚ) * maskValue ms[i]!)).toNat % 2 ^ 8 := by
  rw [out_getElem_lt w ps ms n i hp hm hi]
  exact applyPixel_alpha _ _

theorem C5_truncation_not_clamp_witness :
    1 ≤ ([0x02ABCDEF] : List ℕ).length ∧
    1 ≤ ([0xFFFFFFFF] : List ℕ).length ∧
    0 < 1 ∧
    255 < roundHalfEven (((([0x02ABCDEF] : List ℕ)[0]! >>> 24 : ℕ) : ℚ) *
      maskValue ([0xFFFFFFFF] : List ℕ)[0]!) ∧
    (roundHalfEven (((([0x02ABCDEF] : List ℕ)[0]! >>> 24 : ℕ) : ℚ) *
      maskValue ([0xFFFFFFFF] : List ℕ)[0]!)).toNat % 2 ^ 8 ≠ 255 ∧
    ((applyLuminanceMask 4 ([0x02ABCDEF], [0xFFFFFFFF]) 1).1)[0]! >>> 24 =
      (roundHalfEven (((([0x02ABCDEF] : List ℕ)[0]! >>> 24 : ℕ) : ℚ) *
        maskValue ([0xFFFFFFFF] : List ℕ)[0]!)).toNat % 2 ^ 8 := by
  have hov : 255 < roundHalfEven (((([0x02ABCDEF] : List ℕ)[0]! >>> 24 : ℕ) : ℚ) *
      maskValue ([0xFFFFFFFF] : List ℕ)[0]!) := by
    show 255 < roundHalfEven (((0x02ABCDEF >>> 24 : ℕ) : ℚ) * maskValue 0xFFFFFFFF)
    rw [roundHalfEven_white_product]
    decide
  refine ⟨by simp, by simp, by norm_num, hov, ?_, ?_⟩
  · show ((roundHalfEven (((0x02ABCDEF >>> 24 : ℕ) : ℚ) *
      maskValue 0xFFFFFFFF)).toNat % 2 ^ 8 ≠ 255)
    rw [roundHalfEven_white_product]
    decide
  · exact C5_truncation_not_clamp 4 [0x02ABCDEF] [0xFFFFFFFF] 1 0 (by simp) (by simp)
      (by norm_num) hov

/-- Claim C6: the output alpha of pixel `i` depends only on image pixel
`i` and mask pixel `i` (no cross-pixel dependency), and for every split
point `k ≤ nPixels`, running the compositor on the first `k` pixels and
then on the remaining `nPixels - k` pixels with both base cursors advanced
by `k` pixels yields the same image buffer as one call over all pixels. -/
theorem C6_locality_and_split (w : ℕ) (ps ms : List ℕ) (n k i : ℕ)
    (hp : n ≤ ps.length) (hm : n ≤ ms.length) (hk : k ≤ n) (hi : i < n) :
    ((applyLuminanceMask w (ps, ms) n).1)[i]! = applyPixel ps[i]! ms[i]! ∧
    (applyLuminanceMask w (ps, ms) n).1 =
      ((applyLuminanceMask w (ps, ms) k).1).take k ++
        (applyLuminanceMask w (ps.drop k, ms.drop k) (n - k)).1 := by
  refine ⟨out_getElem_lt w ps ms n i hp hm hi, ?_⟩
  rw [applyLuminanceMask_fst w ps ms n hp hm,
    applyLuminanceMask_fst w ps ms k (by omega) (by omega),
    applyLuminanceMask_fst w (ps.drop k) (ms.drop k) (n - k)
      (by simp only [List.length_drop]; omega)
      (by simp only [List.length_drop]; omega),
    List.take_left' (by simp only [List.length_zipWith, List.length_take]; omega),
    zip_take_assemble applyPixel ps ms k (n - k) _ (by omega) (by omega),
    List.drop_drop, show k + (n - k) = n from by omega]

theorem C6_locality_and_split_witness :
    3 ≤ ([0x80112233, 0xC8FFEEDD, 0xFF000001] : List ℕ).length ∧
    3 ≤ ([0x20FFFFFF, 0x80402010, 0xFFFFFFFF] : List ℕ).length ∧
    2 ≤ 3 ∧ 1 < 3 ∧
    (((applyLuminanceMask 2 ([0x80112233, 0xC8FFEEDD, 0xFF000001],
        [0x20FFFFFF, 0x80402010, 0xFFFFFFFF]) 3).1)[1]! =
      applyPixel ([0x80112233, 0xC8FFEEDD, 0xFF000001] : List ℕ)[1]!
        ([0x20FFFFFF, 0x80402010, 0xFFFFFFFF] : List ℕ)[1]! ∧
    (applyLuminanceMask 2 ([0x80112233, 0xC8FFEEDD, 0xFF000001],
        [0x20FFFFFF, 0x80402010, 0xFFFFFFFF]) 3).1 =
      ((applyLuminanceMask 2 ([0x80112233, 0xC8FFEEDD, 0xFF000001],
        [0x20FFFFFF, 0x80402010, 0xFFFFFFFF]) 2).1).take 2 ++
        (applyLuminanceMask 2 (([0x80112233, 0xC8FFEEDD, 0xFF000001] : List ℕ).drop 2,
          ([0x20FFFFFF, 0x80402010, 0xFFFFFFFF] : List ℕ).drop 2) (3 - 2)).1) :=
  ⟨by simp, by simp, by norm_num, by norm_num,
    C6_locality_and_split 2 [0x80112233, 0xC8FFEEDD, 0xFF000001]
      [0x20FFFFFF, 0x80402010, 0xFFFFFFFF] 3 2 1 (by simp) (by simp)
      (by norm_num) (by norm_num)⟩

/-- Claim C7: if every mask pixel's alpha channel is 0, then after
`applyLuminanceMask` every processed image pixel's alpha channel is 0,
whatever the image alphas and the mask's red/green/blue channels. -/
theorem C7_zero_mask_alpha (w : ℕ) (ps ms : List ℕ) (n : ℕ)
    (hp : n ≤ ps.length) (hm : n ≤ ms.length)
    (hz : ∀ m ∈ ms, maskAlpha m = 0) :
    ∀ i < n, ((applyLuminanceMask w (ps, ms) n).1)[i]! >>> 24 = 0 := by
  intro i hi
  rw [out_getElem_lt w ps ms n i hp hm hi, applyPixel_alpha]
  have hmem : ms[i]! ∈ ms := by
    rw [getElem!_pos ms i (by omega)]
    exact List.getElem_mem _
  have hzv : maskValue ms[i]! = 0 := by
    unfold maskValue
    rw [hz _ hmem]
    push_cast
    ring
  rw [hzv, mul_zero, show (0 : ℚ) = ((0 : ℤ) : ℚ) from by norm_num,
    roundHalfEven_intCast]
  decide

theorem C7_zero_mask_alpha_witness :
    2 ≤ ([0xFF112233, 0x80FFEEDD] : List ℕ).length ∧
    2 ≤ ([0x00FFFFFF, 0x00402010] : List ℕ).length ∧
    (∀ m ∈ ([0x00FFFFFF, 0x00402010] : List ℕ), maskAlpha m = 0) ∧
    ∀ i < 2, ((applyLuminanceMask 4 ([0xFF112233, 0x80FFEEDD],
      [0x00FFFFFF, 0x00402010]) 2).1)[i]! >>> 24 = 0 :=
  ⟨by simp, by simp, by decide,
    C7_zero_mask_alpha 4 [0xFF112233, 0x80FFEEDD] [0x00FFFFFF, 0x00402010] 2
      (by simp) (by simp) (by decide)⟩

/-- Claim C8: for the full-white opaque mask pixel `0xFFFFFFFF`,
`maskValue = 255 * ((0.2125 + 0.7154 + 0.0721) * 255) = 65025` exactly, and
for every 32-bit image pixel the stored output alpha byte — the rounded
un-normalized product truncated to 8 bits — equals the input image alpha
unchanged (`65025 ≡ 1 (mod 256)`). -/
theorem C8_white_mask_roundtrip (w : ℕ) (ps ms : List ℕ) (n i : ℕ)
    (hp : n ≤ ps.length) (hm : n ≤ ms.length) (hi : i < n)
    (hwhite : ms[i]! = 0xFFFFFFFF) (hpix : ps[i]! < 2 ^ 32) :
    maskValue 0xFFFFFFFF = 255 * ((redLum + greenLum + blueLum) * 255) ∧
    ((applyLuminanceMask w (ps, ms) n).1)[i]! >>> 24 = ps[i]! >>> 24 := by
  constructor
  · rw [maskValue_white]
    unfold redLum greenLum blueLum
    norm_num
  · rw [out_getElem_lt w ps ms n i hp hm hi, applyPixel_alpha, hwhite,
      roundHalfEven_white_product, Int.toNat_natCast]
    have ha : ps[i]! >>> 24 < 2 ^ 8 := by
      rw [Nat.shiftRight_eq_div_pow]
      exact Nat.div_lt_of_lt_mul (by omega)
    omega

theorem C8_white_mask_roundtrip_witness :
    2 ≤ ([0x11223344, 0xC8123456] : List ℕ).length ∧
    2 ≤ ([0x00000000, 0xFFFFFFFF] : List ℕ).length ∧
    1 < 2 ∧
    ([0x00000000, 0xFFFFFFFF] : List ℕ)[1]! = 0xFFFFFFFF ∧
    ([0x11223344, 0xC8123456] : List ℕ)[1]! < 2 ^ 32 ∧
    (maskValue 0xFFFFFFFF = 255 * ((redLum + greenLum + blueLum) * 255) ∧
    ((applyLuminanceMask 4 ([0x11223344, 0xC8123456], [0x00000000, 0xFFFFFFFF]) 2).1)[1]! >>> 24 =
      ([0x11223344, 0xC8123456] : List ℕ)[1]! >>> 24) ∧
    ([0x11223344, 0xC8123456] : List ℕ)[1]! >>> 24 = 200 :=
  ⟨by simp, by simp, by norm_num, by decide, by decide,
    C8_white_mask_roundtrip 4 [0x11223344, 0xC8123456] [0x00000000, 0xFFFFFFFF] 2 1
      (by simp) (by simp) (by norm_num) (by decide) (by decide),
    by decide⟩

/-- Claim C9: `applyLuminanceMask` never writes to the mask buffer: in the
state-passing model, the mask component of the state is returned exactly as
it was passed in, for the vectorized and the generic variant alike. -/
theorem C9_mask_read_only (w : ℕ) (ps ms : List ℕ) (n : ℕ) :
    (applyLuminanceMask w (ps, ms) n).2 = ms ∧
    (applyLuminanceMaskGeneric (ps, ms) n).2 = ms :=
  ⟨vectorLoop_snd w (n / w) ps ms (n % w), fallback_snd (ps, ms) n⟩

/-- Claim C10: with `nPixels = 0` both variants are a no-op: the vector
loop runs zero iterations, the scalar fallback receives a count of 0, and
both buffers are returned unchanged. -/
theorem C10_zero_pixels (w : ℕ) (ps ms : List ℕ) :
    applyLuminanceMask w (ps, ms) 0 = fallbackLuminanceMask (ps, ms) 0 ∧
    applyLuminanceMask w (ps, ms) 0 = (ps, ms) ∧
    applyLuminanceMaskGeneric (ps, ms) 0 = (ps, ms) := by
  refine ⟨?_, ?_, ?_⟩ <;>
    simp [applyLuminanceMask, applyLuminanceMaskGeneric, vectorLoop,
      fallbackLuminanceMask]

end KoClipMask
